import Mathlib

/-!
# Verification of `sktime/datatypes/_hierarchical/_convert.py`

Shallow embedding of the hierarchical-scitype conversion registry of
`sktime`: the module builds a dictionary `convert_dict` keyed by triples
`(from_mtype, to_mtype, scitype)`, registers identity converters for every
mtype in `MTYPE_LIST_HIERARCHICAL`, and — gated on availability of the soft
dependencies `dask` and `polars` — registers direct converters to/from the
hub mtype `pd_multiindex_hier` and then closes the conversion graph with
`_extend_conversions`.

Functions imported by the module from elsewhere in the repository
(`_coerce_df_dtypes`, the dask/polars adapters, `_extend_conversions`,
`_check_soft_dependencies`) are not part of the given sources; they are
modelled from the specification, and each such definition says so in its
doc comment.
-/

namespace SktimeHier

/-- The concrete in-memory backend of a data object: a pandas `DataFrame`
(the hub representation `pd_multiindex_hier`), a dask `DataFrame`
(`dask_hierarchical`) or a polars frame (`polars_hierarchical`). -/
inductive Backend where
  | pd
  | dask
  | polars
deriving DecidableEq

/-- Abstraction of a data object passed through converters: its backend,
whether its columns use pandas nullable (extension) dtypes, and an opaque
logical payload that conversions preserve. -/
structure Obj where
  backend : Backend
  nullable : Bool
  payload : Nat
deriving DecidableEq

/-- The `store` side-channel argument of converters: an opaque, optional,
caller-provided object (`store=None` by default in the Python signatures).
Nothing in this module reads it, so its carrier is left as `Nat`. -/
abbrev Store := Option Nat

/-- Modelled from the spec: `_coerce_df_dtypes` (imported from
`sktime/datatypes/_convert_utils/_coerce.py`, not among the given sources)
is the normalization pass of the identity converter: per the source comment
it "coerces pandas nullable dtypes; does nothing if obj is not pandas". -/
def _coerce_df_dtypes (obj : Obj) : Obj :=
  if obj.backend = Backend.pd then { obj with nullable := false } else obj

/-- Modelled from the spec: `convert_dask_to_pandas` from
`sktime/datatypes/_adapter/dask_to_pd.py` (not among the given sources) is
the external adapter "native representation → hub representation" for dask;
it is defined on dask input and fails otherwise. -/
def convert_dask_to_pandas (obj : Obj) : Except String Obj :=
  if obj.backend = Backend.dask then Except.ok { obj with backend := Backend.pd }
  else Except.error "convert_dask_to_pandas: not a dask object"

/-- Modelled from the spec: `convert_pandas_to_dask` from
`sktime/datatypes/_adapter/dask_to_pd.py` (not among the given sources),
the adapter "hub representation → native representation" for dask. -/
def convert_pandas_to_dask (obj : Obj) : Except String Obj :=
  if obj.backend = Backend.pd then Except.ok { obj with backend := Backend.dask }
  else Except.error "convert_pandas_to_dask: not a pandas object"

/-- Modelled from the spec: `convert_polars_to_pandas` from
`sktime/datatypes/_adapter/polars.py` (not among the given sources),
the adapter "native representation → hub representation" for polars. -/
def convert_polars_to_pandas (obj : Obj) : Except String Obj :=
  if obj.backend = Backend.polars then Except.ok { obj with backend := Backend.pd }
  else Except.error "convert_polars_to_pandas: not a polars object"

/-- Modelled from the spec: `convert_pandas_to_polars` from
`sktime/datatypes/_adapter/polars.py` (not among the given sources),
the adapter "hub representation → native representation" for polars. -/
def convert_pandas_to_polars (obj : Obj) : Except String Obj :=
  if obj.backend = Backend.pd then Except.ok { obj with backend := Backend.polars }
  else Except.error "convert_pandas_to_polars: not a pandas object"

/-- `convert_identity(obj, store=None)`: coerces pandas nullable dtypes,
does nothing if `obj` is not pandas (source lines 25–28). -/
def convert_identity (obj : Obj) (store : Store) : Except String Obj :=
  Except.ok (_coerce_df_dtypes obj)

/-- `convert_dask_to_pd_as_hierarchical(obj, store=None)` (source). -/
def convert_dask_to_pd_as_hierarchical (obj : Obj) (store : Store) : Except String Obj :=
  convert_dask_to_pandas obj

/-- `convert_pd_to_dask_as_hierarchical(obj, store=None)` (source):
coerces dtypes, then converts pandas to dask. -/
def convert_pd_to_dask_as_hierarchical (obj : Obj) (store : Store) : Except String Obj :=
  convert_pandas_to_dask (_coerce_df_dtypes obj)

/-- `convert_polars_to_pd_as_hierarchical(obj, store=None)` (source). -/
def convert_polars_to_pd_as_hierarchical (obj : Obj) (store : Store) : Except String Obj :=
  convert_polars_to_pandas obj

/-- `convert_pd_to_polars_as_hierarchical(obj, store=None)` (source). -/
def convert_pd_to_polars_as_hierarchical (obj : Obj) (store : Store) : Except String Obj :=
  convert_pandas_to_polars obj

/-- A converter function object held in the registry.  The five leaf
constructors are the five Python function objects defined by the module;
`compose` is the closure created by the Closure Builder from two registered
converters (spec: `compose(a, store) = g(f(a, store), store)`).
Equality of `Conv` values models identity of Python function objects. -/
inductive Conv where
  | identity
  | daskToPd
  | pdToDask
  | polarsToPd
  | pdToPolars
  | compose (fun1 fun2 : Conv)
deriving DecidableEq

/-- Denotation of a registered converter: invoking the underlying Python
function on an object and a store, returning the converted object or the
raised exception. -/
def Conv.run : Conv → Obj → Store → Except String Obj
  | Conv.identity, obj, store => convert_identity obj store
  | Conv.daskToPd, obj, store => convert_dask_to_pd_as_hierarchical obj store
  | Conv.pdToDask, obj, store => convert_pd_to_dask_as_hierarchical obj store
  | Conv.polarsToPd, obj, store => convert_polars_to_pd_as_hierarchical obj store
  | Conv.pdToPolars, obj, store => convert_pd_to_polars_as_hierarchical obj store
  | Conv.compose f g, obj, store => (f.run obj store).bind (fun o1 => g.run o1 store)

/-- A registry key: `(from_mtype, to_mtype, scitype)`. -/
abbrev Key := String × String × String

/-- The registry `convert_dict`, an insertion-ordered dictionary from keys
to converter function objects, as a duplicate-free association list. -/
abbrev ConvertDict := List (Key × Conv)

/-- Dictionary lookup, `convert_dict[k]` (`None` when absent). -/
def dictLookup (d : ConvertDict) (k : Key) : Option Conv :=
  match d with
  | [] => none
  | (k0, v) :: t => if k = k0 then some v else dictLookup t k

/-- Dictionary assignment `convert_dict[k] = v`: replaces the value in
place when the key is present, appends otherwise (Python dict semantics). -/
def dictInsert (d : ConvertDict) (k : Key) (v : Conv) : ConvertDict :=
  match d with
  | [] => [(k, v)]
  | (k0, v0) :: t => if k = k0 then (k, v) :: t else (k0, v0) :: dictInsert t k v

/-- Invocation of a converter with the registry threaded through as global
state, to observe mutation: each leaf case is the body of the corresponding
Python function, which performs no registry write; `compose` runs the first
hop, and on success runs the second hop in the resulting state. -/
def Conv.runSt : Conv → Obj → Store → ConvertDict → Except String Obj × ConvertDict
  | Conv.identity, obj, store, d => (convert_identity obj store, d)
  | Conv.daskToPd, obj, store, d => (convert_dask_to_pd_as_hierarchical obj store, d)
  | Conv.pdToDask, obj, store, d => (convert_pd_to_dask_as_hierarchical obj store, d)
  | Conv.polarsToPd, obj, store, d => (convert_polars_to_pd_as_hierarchical obj store, d)
  | Conv.pdToPolars, obj, store, d => (convert_pd_to_polars_as_hierarchical obj store, d)
  | Conv.compose f g, obj, store, d =>
      match f.runSt obj store d with
      | (Except.ok o1, d1) => g.runSt o1 store d1
      | (Except.error e, d1) => (Except.error e, d1)

/-- `MTYPE_LIST_HIERARCHICAL` (source lines 10–14). -/
def MTYPE_LIST_HIERARCHICAL : List String :=
  ["pd_multiindex_hier", "dask_hierarchical", "polars_hierarchical"]

/-- The identity-registration loop (source lines 32–33): assign the
identity function to type conversion to self, for every mtype. -/
def identityDict : ConvertDict :=
  MTYPE_LIST_HIERARCHICAL.foldl
    (fun d tp => dictInsert d (tp, tp, "Hierarchical") Conv.identity) []

/-- Modelled from the spec: one step of the Closure Builder for the ordered
pair `(A, B)` through the hub `anchor` — spec §4.2: for `A ≠ B` with no
existing entry `(A, B, scitype)`, require entries `(A, H, scitype)` and
`(H, B, scitype)` (skip the pair if either is missing) and register the
composed converter. -/
def _compose_step (anchor : String) (d : ConvertDict) (A B : String) : ConvertDict :=
  if A = B then d
  else if (dictLookup d (A, B, "Hierarchical")).isSome then d
  else
    match dictLookup d (A, anchor, "Hierarchical"),
          dictLookup d (anchor, B, "Hierarchical") with
    | some f, some g => dictInsert d (A, B, "Hierarchical") (Conv.compose f g)
    | some _, none => d
    | none, _ => d

/-- Modelled from the spec: `_extend_conversions` (imported from
`sktime/datatypes/_convert_utils/_convert.py`, not among the given sources)
is the Closure Builder — spec §4.2: given a hub mtype (the call sites pass
it as `anchor_mtype`), a registry and the declared universe, synthesize
converters `A→B` for every ordered pair in the universe where a direct
`A→B` converter is absent, by composing `A→H` then `H→B`, never
overwriting an existing entry.  Specialized to the `"Hierarchical"`
scitype used by both call sites of this module; the `mtype` argument
mirrors the call-site signature. -/
def _extend_conversions (mtype anchor : String) (d : ConvertDict)
    (mtype_universe : List String) : ConvertDict :=
  mtype_universe.foldl
    (fun acc A => mtype_universe.foldl (fun acc2 B => _compose_step anchor acc2 A B) acc)
    d

/-- The dask registration block (source lines 36–62): direct converters
dask↔hub, then `_extend_conversions`; executed iff the dask soft
dependency is available. -/
def registerDask (d : ConvertDict) : ConvertDict :=
  let d := dictInsert d ("dask_hierarchical", "pd_multiindex_hier", "Hierarchical")
    Conv.daskToPd
  let d := dictInsert d ("pd_multiindex_hier", "dask_hierarchical", "Hierarchical")
    Conv.pdToDask
  _extend_conversions "dask_hierarchical" "pd_multiindex_hier" d MTYPE_LIST_HIERARCHICAL

/-- The polars registration block (source lines 64–89): direct converters
polars↔hub, then `_extend_conversions`; executed iff the polars soft
dependency is available. -/
def registerPolars (d : ConvertDict) : ConvertDict :=
  let d := dictInsert d ("polars_hierarchical", "pd_multiindex_hier", "Hierarchical")
    Conv.polarsToPd
  let d := dictInsert d ("pd_multiindex_hier", "polars_hierarchical", "Hierarchical")
    Conv.pdToPolars
  _extend_conversions "polars_hierarchical" "pd_multiindex_hier" d MTYPE_LIST_HIERARCHICAL

/-- Module import: `convert_dict` as it stands after module execution,
parameterized by the availability probes `_check_soft_dependencies("dask")`
and `_check_soft_dependencies("polars")` (modelled from the spec as boolean
capability queries, since `sktime/utils/dependencies` is not among the
given sources): identities first, then the dask block if dask is available,
then the polars block if polars is available. -/
def buildConvertDict (hasDask hasPolars : Bool) : ConvertDict :=
  let d := identityDict
  let d := if hasDask then registerDask d else d
  if hasPolars then registerPolars d else d

/-- The module with the two availability-gated blocks executed in the
opposite order (polars block first), for the order-independence claim. -/
def buildConvertDictPolarsFirst (hasDask hasPolars : Bool) : ConvertDict :=
  let d := identityDict
  let d := if hasPolars then registerPolars d else d
  if hasDask then registerDask d else d

/-! ## Dictionary lemmas -/

theorem dictLookup_insert (d : ConvertDict) (kIns k : Key) (v : Conv) :
    dictLookup (dictInsert d kIns v) k =
      if k = kIns then some v else dictLookup d k := by
  induction d with
  | nil =>
      simp only [dictInsert, dictLookup]
  | cons p t ih =>
      rcases p with ⟨k0, v0⟩
      simp only [dictInsert, dictLookup]
      split_ifs with h0 hk hk' hk hk' <;> simp_all [dictLookup]

theorem foldl_preserves {α β : Type} (P : α → Prop) (f : α → β → α)
    (hf : ∀ a b, P a → P (f a b)) :
    ∀ (l : List β) (acc : α), P acc → P (l.foldl f acc) := by
  intro l
  induction l with
  | nil => intro acc h; exact h
  | cons x t ih => intro acc h; exact ih _ (hf _ _ h)

/-- Invariant of the Closure Builder relating the evolving registry `dc` to
the registry `d` it started from: existing entries keep their values, no
entry disappears, and every new entry is a hub-composed converter built
from converters registered in `d`. -/
def ExtendInv (anchor : String) (d dc : ConvertDict) : Prop :=
  (∀ k, (dictLookup d k).isSome → dictLookup dc k = dictLookup d k) ∧
  (∀ k, dictLookup dc k = none → dictLookup d k = none) ∧
  (∀ k c, dictLookup dc k = some c →
    dictLookup d k = some c ∨
      (dictLookup d k = none ∧ ∃ A B f g, k = (A, B, "Hierarchical") ∧
        c = Conv.compose f g ∧
        dictLookup d (A, anchor, "Hierarchical") = some f ∧
        dictLookup d (anchor, B, "Hierarchical") = some g))

theorem extendInv_refl (anchor : String) (d : ConvertDict) : ExtendInv anchor d d :=
  ⟨fun _ _ => rfl, fun _ h => h, fun _ _ h => Or.inl h⟩

theorem extendInv_step (anchor : String) (d dc : ConvertDict) (A B : String)
    (h : ExtendInv anchor d dc) :
    ExtendInv anchor d (_compose_step anchor dc A B) := by
  obtain ⟨h1, h2, h3⟩ := h
  unfold _compose_step
  split
  · exact ⟨h1, h2, h3⟩
  split
  next hnotsome =>
    exact ⟨h1, h2, h3⟩
  next hnotsome =>
  have hnone : dictLookup dc (A, B, "Hierarchical") = none :=
    Option.not_isSome_iff_eq_none.mp hnotsome
  split
  next f g hf hg =>
    have hdnone : dictLookup d (A, B, "Hierarchical") = none := h2 _ hnone
    have hdf : dictLookup d (A, anchor, "Hierarchical") = some f := by
      rcases h3 _ _ hf with hl | ⟨hn, A', B', f', g', hkeq, _, hf', _⟩
      · exact hl
      · simp only [Prod.mk.injEq] at hkeq
        obtain ⟨hA, hB, -⟩ := hkeq
        rw [← hA] at hf'
        rw [hn] at hf'
        exact Option.noConfusion hf'
    have hdg : dictLookup d (anchor, B, "Hierarchical") = some g := by
      rcases h3 _ _ hg with hl | ⟨hn, A', B', f', g', hkeq, _, _, hg'⟩
      · exact hl
      · simp only [Prod.mk.injEq] at hkeq
        obtain ⟨hA, hB, -⟩ := hkeq
        rw [← hB] at hg'
        rw [hn] at hg'
        exact Option.noConfusion hg'
    refine ⟨?_, ?_, ?_⟩
    · intro k hk
      rw [dictLookup_insert]
      by_cases hkk : k = (A, B, "Hierarchical")
      · exfalso
        subst hkk
        rw [hdnone] at hk
        exact Bool.noConfusion hk
      · rw [if_neg hkk]
        exact h1 k hk
    · intro k hk
      rw [dictLookup_insert] at hk
      by_cases hkk : k = (A, B, "Hierarchical")
      · rw [if_pos hkk] at hk
        exact Option.noConfusion hk
      · rw [if_neg hkk] at hk
        exact h2 k hk
    · intro k c hc
      rw [dictLookup_insert] at hc
      by_cases hkk : k = (A, B, "Hierarchical")
      · subst hkk
        rw [if_pos rfl] at hc
        have hceq : Conv.compose f g = c := by
          injection hc
        exact Or.inr ⟨hdnone, A, B, f, g, rfl, hceq.symm, hdf, hdg⟩
      · rw [if_neg hkk] at hc
        exact h3 k c hc
  next =>
    exact ⟨h1, h2, h3⟩
  next =>
    exact ⟨h1, h2, h3⟩

theorem extend_extendInv (mtype anchor : String) (d : ConvertDict) (U : List String) :
    ExtendInv anchor d (_extend_conversions mtype anchor d U) := by
  unfold _extend_conversions
  refine foldl_preserves (ExtendInv anchor d) _ ?_ U d (extendInv_refl anchor d)
  intro acc A hacc
  exact foldl_preserves (ExtendInv anchor d) _
    (fun acc2 B h => extendInv_step anchor d acc2 A B h) U acc hacc

theorem dictLookup_eq_of_perm {d1 d2 : ConvertDict} (h : List.Perm d1 d2) :
    (d1.map Prod.fst).Nodup → ∀ k, dictLookup d1 k = dictLookup d2 k := by
  induction h with
  | nil => intro _ _; rfl
  | cons x h' ih =>
      intro nd k
      rcases x with ⟨kx, vx⟩
      simp only [List.map_cons, List.nodup_cons] at nd
      simp only [dictLookup]
      by_cases hk : k = kx
      · rw [if_pos hk, if_pos hk]
      · rw [if_neg hk, if_neg hk]
        exact ih nd.2 k
  | swap x y t =>
      intro nd k
      rcases x with ⟨kx, vx⟩
      rcases y with ⟨ky, vy⟩
      have hxy : ky ≠ kx := by
        simp only [List.map_cons, List.nodup_cons, List.mem_cons] at nd
        exact fun hc => nd.1 (Or.inl hc)
      simp only [dictLookup]
      by_cases h1 : k = ky
      · have h2 : ¬ k = kx := fun hc => hxy (h1.symm.trans hc)
        rw [if_pos h1, if_neg h2, if_pos h1]
      · rw [if_neg h1]
        by_cases h2 : k = kx
        · rw [if_pos h2, if_pos h2]
        · rw [if_neg h2, if_neg h2, if_neg h1]
  | trans h1 h2 ih1 ih2 =>
      intro nd k
      rw [ih1 nd k]
      exact ih2 ((h1.map Prod.fst).nodup nd) k

theorem coerce_idem (o : Obj) :
    _coerce_df_dtypes (_coerce_df_dtypes o) = _coerce_df_dtypes o := by
  unfold _coerce_df_dtypes
  by_cases h : o.backend = Backend.pd
  · simp [h]
  · simp [h]

/-- The identity converter is registered for every mtype of the universe,
whatever the availability of the soft dependencies. -/
theorem identity_lookup_some (b1 b2 : Bool) (T : String)
    (hT : T ∈ MTYPE_LIST_HIERARCHICAL) :
    dictLookup (buildConvertDict b1 b2) (T, T, "Hierarchical") = some Conv.identity := by
  fin_cases hT <;> cases b1 <;> cases b2 <;> decide

/-! ## Claim theorems -/

/-- C1: with both dask and polars available, `convert_dict` holds entries
for `("dask_hierarchical", "polars_hierarchical", "Hierarchical")` and
`("polars_hierarchical", "dask_hierarchical", "Hierarchical")`; the
registered converter for each such pair is the composition of the
registered hop to `pd_multiindex_hier` followed by the registered hop from
`pd_multiindex_hier`, and on every input object and store it runs the two
hops in sequence. -/
theorem hub_closure_registers_composites :
    dictLookup (buildConvertDict true true)
        ("dask_hierarchical", "polars_hierarchical", "Hierarchical")
      = some (Conv.compose Conv.daskToPd Conv.pdToPolars) ∧
    dictLookup (buildConvertDict true true)
        ("polars_hierarchical", "dask_hierarchical", "Hierarchical")
      = some (Conv.compose Conv.polarsToPd Conv.pdToDask) ∧
    dictLookup (buildConvertDict true true)
        ("dask_hierarchical", "pd_multiindex_hier", "Hierarchical") = some Conv.daskToPd ∧
    dictLookup (buildConvertDict true true)
        ("pd_multiindex_hier", "polars_hierarchical", "Hierarchical") = some Conv.pdToPolars ∧
    dictLookup (buildConvertDict true true)
        ("polars_hierarchical", "pd_multiindex_hier", "Hierarchical") = some Conv.polarsToPd ∧
    dictLookup (buildConvertDict true true)
        ("pd_multiindex_hier", "dask_hierarchical", "Hierarchical") = some Conv.pdToDask ∧
    (∀ (a : Obj) (s : Store),
      Conv.run (Conv.compose Conv.daskToPd Conv.pdToPolars) a s
        = (Conv.run Conv.daskToPd a s).bind (fun o1 => Conv.run Conv.pdToPolars o1 s)) ∧
    (∀ (a : Obj) (s : Store),
      Conv.run (Conv.compose Conv.polarsToPd Conv.pdToDask) a s
        = (Conv.run Conv.polarsToPd a s).bind (fun o1 => Conv.run Conv.pdToDask o1 s)) := by
  refine ⟨by decide, by decide, by decide, by decide, by decide, by decide, ?_, ?_⟩
  · intro a s
    rfl
  · intro a s
    rfl

/-- C2: for every mtype `T` of `MTYPE_LIST_HIERARCHICAL`, after module
execution `convert_dict` holds a converter under `(T, T, "Hierarchical")`,
and that converter is idempotent: applying it twice is applying it once. -/
theorem self_conversion_idempotent (hasDask hasPolars : Bool) (T : String)
    (hT : T ∈ MTYPE_LIST_HIERARCHICAL) :
    ∃ f, dictLookup (buildConvertDict hasDask hasPolars) (T, T, "Hierarchical") = some f ∧
      ∀ (x : Obj) (s : Store),
        (Conv.run f x s).bind (fun y => Conv.run f y s) = Conv.run f x s := by
  refine ⟨Conv.identity, identity_lookup_some hasDask hasPolars T hT, ?_⟩
  intro x s
  show Except.ok (_coerce_df_dtypes (_coerce_df_dtypes x))
      = Except.ok (_coerce_df_dtypes x)
  rw [coerce_idem]

theorem self_conversion_idempotent_witness :
    ("pd_multiindex_hier" ∈ MTYPE_LIST_HIERARCHICAL) ∧
    ∃ f, dictLookup (buildConvertDict true true)
        ("pd_multiindex_hier", "pd_multiindex_hier", "Hierarchical") = some f ∧
      ∀ (x : Obj) (s : Store),
        (Conv.run f x s).bind (fun y => Conv.run f y s) = Conv.run f x s :=
  ⟨by decide, self_conversion_idempotent true true "pd_multiindex_hier" (by decide)⟩

/-- C8: invoking a registered converter never mutates the registry: with
the registry threaded through the invocation as global state, the registry
after the call equals the registry before it, whether the conversion
succeeds or raises. -/
theorem converter_invocation_preserves_registry (c : Conv) (o : Obj) (s : Store)
    (d : ConvertDict) : (Conv.runSt c o s d).2 = d := by
  induction c generalizing o d with
  | identity => rfl
  | daskToPd => rfl
  | pdToDask => rfl
  | polarsToPd => rfl
  | pdToPolars => rfl
  | compose f g ihf ihg =>
      simp only [Conv.runSt]
      rcases hf : Conv.runSt f o s d with ⟨r, d1⟩
      have hd1 : d1 = d := by
        have h := ihf o d
        rw [hf] at h
        exact h
      cases r with
      | ok o1 => exact hd1 ▸ ihg o1 d1
      | error e => exact hd1

/-- C9: every converter function defined by the module ignores its `store`
parameter: the result on any input object is the same for any two store
values (the default `None` included). -/
theorem converters_ignore_store (obj : Obj) (s1 s2 : Store) :
    convert_identity obj s1 = convert_identity obj s2 ∧
    convert_dask_to_pd_as_hierarchical obj s1 = convert_dask_to_pd_as_hierarchical obj s2 ∧
    convert_pd_to_dask_as_hierarchical obj s1 = convert_pd_to_dask_as_hierarchical obj s2 ∧
    convert_polars_to_pd_as_hierarchical obj s1 = convert_polars_to_pd_as_hierarchical obj s2 ∧
    convert_pd_to_polars_as_hierarchical obj s1 = convert_pd_to_polars_as_hierarchical obj s2 :=
  ⟨rfl, rfl, rfl, rfl, rfl⟩

/-- C10: the identity registrations run unconditionally, before and
independently of the availability probes: for every mtype `T` of the
universe, `(T, T, "Hierarchical")` maps to the identity converter under
every combination of available soft dependencies. -/
theorem identity_keys_unconditional (hasDask hasPolars : Bool) (T : String)
    (hT : T ∈ MTYPE_LIST_HIERARCHICAL) :
    dictLookup (buildConvertDict hasDask hasPolars) (T, T, "Hierarchical")
      = some Conv.identity :=
  identity_lookup_some hasDask hasPolars T hT

theorem identity_keys_unconditional_witness :
    ("dask_hierarchical" ∈ MTYPE_LIST_HIERARCHICAL) ∧
    dictLookup (buildConvertDict false false)
        ("dask_hierarchical", "dask_hierarchical", "Hierarchical") = some Conv.identity :=
  ⟨by decide, identity_keys_unconditional false false "dask_hierarchical" (by decide)⟩

/-- C3: the Closure Builder never overwrites an already-registered
converter: every key present in the registry before a call to
`_extend_conversions` maps to the same converter function object after
the call. -/
theorem extend_conversions_never_overwrites (mtype anchor : String) (d : ConvertDict)
    (U : List String) (k : Key) (h : (dictLookup d k).isSome) :
    dictLookup (_extend_conversions mtype anchor d U) k = dictLookup d k :=
  (extend_extendInv mtype anchor d U).1 k h

/-- The registry as it stands inside the dask block right before the
`_extend_conversions` call: identities plus the direct dask↔hub edges. -/
def daskDirectDict : ConvertDict :=
  dictInsert (dictInsert identityDict
      ("dask_hierarchical", "pd_multiindex_hier", "Hierarchical") Conv.daskToPd)
    ("pd_multiindex_hier", "dask_hierarchical", "Hierarchical") Conv.pdToDask

theorem extend_conversions_never_overwrites_witness :
    (dictLookup daskDirectDict
        ("dask_hierarchical", "pd_multiindex_hier", "Hierarchical")).isSome ∧
    dictLookup (_extend_conversions "dask_hierarchical" "pd_multiindex_hier"
          daskDirectDict MTYPE_LIST_HIERARCHICAL)
        ("dask_hierarchical", "pd_multiindex_hier", "Hierarchical")
      = dictLookup daskDirectDict
        ("dask_hierarchical", "pd_multiindex_hier", "Hierarchical") :=
  ⟨by decide,
    extend_conversions_never_overwrites "dask_hierarchical" "pd_multiindex_hier"
      daskDirectDict MTYPE_LIST_HIERARCHICAL
      ("dask_hierarchical", "pd_multiindex_hier", "Hierarchical") (by decide)⟩

/-- C5: running the dask registration block before the polars one yields
the same dictionary (same keys, same converter under every key) as running
the polars block before the dask one, for every fixed availability of the
two soft dependencies. -/
theorem registration_order_independent (hasDask hasPolars : Bool) (k : Key) :
    dictLookup (buildConvertDict hasDask hasPolars) k
      = dictLookup (buildConvertDictPolarsFirst hasDask hasPolars) k := by
  cases hasDask <;> cases hasPolars
  · rfl
  · rfl
  · rfl
  · exact dictLookup_eq_of_perm (by decide) (by decide) k

/-- C6: every key of `convert_dict`, under any combination of available
soft dependencies, is a triple whose two mtypes belong to
`MTYPE_LIST_HIERARCHICAL` and whose scitype is `"Hierarchical"`. -/
theorem convert_dict_keys_in_universe (hasDask hasPolars : Bool) (k : Key)
    (h : k ∈ (buildConvertDict hasDask hasPolars).map Prod.fst) :
    k.1 ∈ MTYPE_LIST_HIERARCHICAL ∧ k.2.1 ∈ MTYPE_LIST_HIERARCHICAL ∧
      k.2.2 = "Hierarchical" := by
  cases hasDask <;> cases hasPolars <;> revert k h <;> decide

theorem convert_dict_keys_in_universe_witness :
    (("dask_hierarchical", "polars_hierarchical", "Hierarchical") : Key)
        ∈ (buildConvertDict true true).map Prod.fst ∧
    ("dask_hierarchical" ∈ MTYPE_LIST_HIERARCHICAL ∧
      "polars_hierarchical" ∈ MTYPE_LIST_HIERARCHICAL ∧
      "Hierarchical" = "Hierarchical") :=
  ⟨by decide, convert_dict_keys_in_universe true true
    ("dask_hierarchical", "polars_hierarchical", "Hierarchical") (by decide)⟩

/-- C7: every converter synthesized by the Closure Builder is the
hub-composition of two converters registered in the final registry, and
invoking it threads the caller's store through both hops: on input `a` and
store `s` it runs the `A→H` hop on `(a, s)` and the `H→B` hop on the
result together with the same store `s`. -/
theorem synthesized_converter_threads_store (mtype anchor : String) (d : ConvertDict)
    (U : List String) (k : Key) (c : Conv)
    (h0 : dictLookup d k = none)
    (h1 : dictLookup (_extend_conversions mtype anchor d U) k = some c) :
    ∃ A B f g, k = (A, B, "Hierarchical") ∧ c = Conv.compose f g ∧
      dictLookup (_extend_conversions mtype anchor d U) (A, anchor, "Hierarchical")
        = some f ∧
      dictLookup (_extend_conversions mtype anchor d U) (anchor, B, "Hierarchical")
        = some g ∧
      ∀ (a : Obj) (s : Store),
        Conv.run c a s = (Conv.run f a s).bind (fun o1 => Conv.run g o1 s) := by
  obtain ⟨hI1, hI2, hI3⟩ := extend_extendInv mtype anchor d U
  rcases hI3 k c h1 with hl | ⟨hn, A, B, f, g, hk, hc, hf, hg⟩
  · rw [h0] at hl
    exact Option.noConfusion hl
  · refine ⟨A, B, f, g, hk, hc, ?_, ?_, ?_⟩
    · rw [hI1 _ (by rw [hf]; rfl)]
      exact hf
    · rw [hI1 _ (by rw [hg]; rfl)]
      exact hg
    · intro a s
      rw [hc]
      rfl

/-- A sample registry holding only the two hub hops dask→pd and
pd→polars, for exercising the Closure Builder on its own. -/
def hubSampleDict : ConvertDict :=
  [(("dask_hierarchical", "pd_multiindex_hier", "Hierarchical"), Conv.daskToPd),
   (("pd_multiindex_hier", "polars_hierarchical", "Hierarchical"), Conv.pdToPolars)]

theorem synthesized_converter_threads_store_witness :
    dictLookup hubSampleDict
        ("dask_hierarchical", "polars_hierarchical", "Hierarchical") = none ∧
    dictLookup (_extend_conversions "dask_hierarchical" "pd_multiindex_hier"
          hubSampleDict MTYPE_LIST_HIERARCHICAL)
        ("dask_hierarchical", "polars_hierarchical", "Hierarchical")
      = some (Conv.compose Conv.daskToPd Conv.pdToPolars) ∧
    ∃ A B f g,
      (("dask_hierarchical", "polars_hierarchical", "Hierarchical") : Key)
          = (A, B, "Hierarchical") ∧
      Conv.compose Conv.daskToPd Conv.pdToPolars = Conv.compose f g ∧
      dictLookup (_extend_conversions "dask_hierarchical" "pd_multiindex_hier"
            hubSampleDict MTYPE_LIST_HIERARCHICAL)
          (A, "pd_multiindex_hier", "Hierarchical") = some f ∧
      dictLookup (_extend_conversions "dask_hierarchical" "pd_multiindex_hier"
            hubSampleDict MTYPE_LIST_HIERARCHICAL)
          ("pd_multiindex_hier", B, "Hierarchical") = some g ∧
      ∀ (a : Obj) (s : Store),
        Conv.run (Conv.compose Conv.daskToPd Conv.pdToPolars) a s
          = (Conv.run f a s).bind (fun o1 => Conv.run g o1 s) :=
  ⟨by decide, by decide,
    synthesized_converter_threads_store "dask_hierarchical" "pd_multiindex_hier"
      hubSampleDict MTYPE_LIST_HIERARCHICAL
      ("dask_hierarchical", "polars_hierarchical", "Hierarchical")
      (Conv.compose Conv.daskToPd Conv.pdToPolars) (by decide) (by decide)⟩

/-- C4 counterexample: with dask unavailable, the lookup of the pair
`(dask_hierarchical, dask_hierarchical, "Hierarchical")` still succeeds —
the identity loop registers it before the availability probes run — so not
every lookup of a conversion pair involving `dask_hierarchical` yields a
not-found outcome. -/
theorem dask_unavailable_identity_still_found :
    dictLookup (buildConvertDict false true)
        ("dask_hierarchical", "dask_hierarchical", "Hierarchical") ≠ none := by
  decide

/-- C4 (amended): if the dask soft dependency is unavailable, every lookup
of a pair involving `dask_hierarchical` other than its unconditionally
registered identity pair yields not-found, while the polars converters
(when polars is available) are registered unaffected; symmetrically with
dask and polars swapped. -/
theorem unavailable_mtype_lookups_not_found :
    (∀ (hp : Bool) (a b : String),
      (a = "dask_hierarchical" ∨ b = "dask_hierarchical") →
      ¬(a = "dask_hierarchical" ∧ b = "dask_hierarchical") →
      dictLookup (buildConvertDict false hp) (a, b, "Hierarchical") = none) ∧
    (∀ (hd : Bool) (a b : String),
      (a = "polars_hierarchical" ∨ b = "polars_hierarchical") →
      ¬(a = "polars_hierarchical" ∧ b = "polars_hierarchical") →
      dictLookup (buildConvertDict hd false) (a, b, "Hierarchical") = none) ∧
    dictLookup (buildConvertDict false true)
        ("polars_hierarchical", "pd_multiindex_hier", "Hierarchical")
      = some Conv.polarsToPd ∧
    dictLookup (buildConvertDict false true)
        ("pd_multiindex_hier", "polars_hierarchical", "Hierarchical")
      = some Conv.pdToPolars ∧
    dictLookup (buildConvertDict true false)
        ("dask_hierarchical", "pd_multiindex_hier", "Hierarchical")
      = some Conv.daskToPd ∧
    dictLookup (buildConvertDict true false)
        ("pd_multiindex_hier", "dask_hierarchical", "Hierarchical")
      = some Conv.pdToDask := by
  refine ⟨?_, ?_, by decide, by decide, by decide, by decide⟩
  · intro hp a b h hne
    cases hp
    · have e : buildConvertDict false false =
          [(("pd_multiindex_hier", "pd_multiindex_hier", "Hierarchical"), Conv.identity),
           (("dask_hierarchical", "dask_hierarchical", "Hierarchical"), Conv.identity),
           (("polars_hierarchical", "polars_hierarchical", "Hierarchical"),
             Conv.identity)] := by decide
      rw [e]
      rcases h with h | h <;> subst h <;> simp at hne <;> simp [dictLookup, hne]
    · have e : buildConvertDict false true =
          [(("pd_multiindex_hier", "pd_multiindex_hier", "Hierarchical"), Conv.identity),
           (("dask_hierarchical", "dask_hierarchical", "Hierarchical"), Conv.identity),
           (("polars_hierarchical", "polars_hierarchical", "Hierarchical"), Conv.identity),
           (("polars_hierarchical", "pd_multiindex_hier", "Hierarchical"), Conv.polarsToPd),
           (("pd_multiindex_hier", "polars_hierarchical", "Hierarchical"),
             Conv.pdToPolars)] := by decide
      rw [e]
      rcases h with h | h <;> subst h <;> simp at hne <;> simp [dictLookup, hne]
  · intro hd a b h hne
    cases hd
    · have e : buildConvertDict false false =
          [(("pd_multiindex_hier", "pd_multiindex_hier", "Hierarchical"), Conv.identity),
           (("dask_hierarchical", "dask_hierarchical", "Hierarchical"), Conv.identity),
           (("polars_hierarchical", "polars_hierarchical", "Hierarchical"),
             Conv.identity)] := by decide
      rw [e]
      rcases h with h | h <;> subst h <;> simp at hne <;> simp [dictLookup, hne]
    · have e : buildConvertDict true false =
          [(("pd_multiindex_hier", "pd_multiindex_hier", "Hierarchical"), Conv.identity),
           (("dask_hierarchical", "dask_hierarchical", "Hierarchical"), Conv.identity),
           (("polars_hierarchical", "polars_hierarchical", "Hierarchical"), Conv.identity),
           (("dask_hierarchical", "pd_multiindex_hier", "Hierarchical"), Conv.daskToPd),
           (("pd_multiindex_hier", "dask_hierarchical", "Hierarchical"),
             Conv.pdToDask)] := by decide
      rw [e]
      rcases h with h | h <;> subst h <;> simp at hne <;> simp [dictLookup, hne]

theorem unavailable_mtype_lookups_not_found_witness :
    (("dask_hierarchical" : String) = "dask_hierarchical" ∨
      ("pd_multiindex_hier" : String) = "dask_hierarchical") ∧
    ¬(("dask_hierarchical" : String) = "dask_hierarchical" ∧
      ("pd_multiindex_hier" : String) = "dask_hierarchical") ∧
    dictLookup (buildConvertDict false true)
        ("dask_hierarchical", "pd_multiindex_hier", "Hierarchical") = none :=
  ⟨Or.inl rfl, by decide,
    unavailable_mtype_lookups_not_found.1 true "dask_hierarchical" "pd_multiindex_hier"
      (Or.inl rfl) (by decide)⟩

end SktimeHier
